import Mathlib

/-!
Verification of the sepal_ui widget library against its natural-language
specification.  The Python sources are shallowly embedded: widget objects
become Lean structures holding the reactive attributes the claims talk
about, event handlers become pure state-transition functions, and Python
exceptions become `Except` errors.  Host-runtime services (traitlets
synchronisation, rendering) are out of scope, as the spec itself states.
-/

set_option autoImplicit false

namespace SepalUI

/-- Python-level exception outcomes raised by the embedded code. -/
inductive PyErr where
  | mixedError        -- Exception("You mixed adding and removing, punk")
  | notUnderstood     -- Exception("I don't get what you meant")
  | indexError        -- IndexError from `m[0]` on an empty string / list
  | keyError          -- KeyError from `dict[k]` / `dict.pop(k)`
  | unboundLocalError -- UnboundLocalError from reading an unassigned local
deriving DecidableEq, Repr

deriving instance DecidableEq for Except

/-! ## FullScreenControl (sepal_ui/mapping/fullscreen_control.py) -/

/-- The icons used to toggle between expand and compressed mode
(`FullScreenControl.ICONS`). -/
def ICONS : List String := ["fas fa-expand", "fas fa-compress"]

/-- The javascript method names used to switch display modes
(`FullScreenControl.METHODS`). -/
def METHODS : List String := ["embed", "fullscreen"]

/-- Python indexes lists with booleans through their integer coercion. -/
def boolIdx : Bool → Nat
  | false => 0
  | true => 1

/-- The state of a FullScreenControl: its `zoomed` flag and the logo
currently displayed on `w_btn`. -/
structure FullScreenControlSt where
  zoomed : Bool
  btnLogo : String
deriving DecidableEq, Repr

/-- Embeds `FullScreenControl.__init__`: registers the requested zoom state and
creates the button with logo `ICONS[self.zoomed]`. -/
def fullScreenInit (fullscreen : Bool) : FullScreenControlSt :=
  { zoomed := fullscreen, btnLogo := ICONS.getD (boolIdx fullscreen) "" }

/-- Embeds `FullScreenControl.toggle_fullscreen`: negates `zoomed`, sets the
button icon to `ICONS[self.zoomed]` and sends the js method
`METHODS[self.zoomed]` (returned as the second component). -/
def toggle_fullscreen (c : FullScreenControlSt) : FullScreenControlSt × String :=
  let z := !c.zoomed
  ({ zoomed := z, btnLogo := ICONS.getD (boolIdx z) "" }, METHODS.getD (boolIdx z) "")

/-! ## get_theme (sepal_ui/__init__.py) -/

/-- The observable content of the configuration file: whether
`config_file.is_file()` holds, and the `[sepal-ui] theme` entry if present. -/
structure ConfigFileSt where
  isFile : Bool
  themeEntry : Option String
deriving DecidableEq, Repr

/-- Models the stdlib call `config.get("sepal-ui", "theme", fallback="dark")`:
the stored entry when present, the fallback otherwise. -/
def configGetTheme (c : ConfigFileSt) (fallback : String) : String :=
  c.themeEntry.getD fallback

/-- Embeds `get_theme` of sepal_ui/__init__.py.  Returns the theme string and
the boolean assigned to the host toolkit flag `v.theme.dark`. -/
def get_theme (c : ConfigFileSt) : String × Bool :=
  let theme := if c.isFile then configGetTheme c "dark" else "dark"
  (theme, if theme = "dark" then true else false)

/-! ## SepalWidget visibility (sepal_ui/sepalwidgets/sepalwidget.py)

The `class_` attribute is represented by its list of CSS class tokens, the
granularity at which `class_list.remove` and the `or` test operate. -/

/-- The reactive attributes of a SepalWidget involved in visibility handling:
the `viz` flag, the `class_` tokens and the saved `old_class` tokens. -/
structure WidgetSt where
  viz : Bool
  classes : List String
  old_class : List String
deriving DecidableEq, Repr

/-- Models `self.class_list.remove("d-none")`: drops the d-none token. -/
def removeDNone (cs : List String) : List String :=
  cs.filter (fun c => c ≠ "d-none")

/-- Embeds the `viz = True` branch of `SepalWidget._set_viz`:
`self.class_ = self.old_class or self.class_` then
`self.class_list.remove("d-none")`. -/
def setVizTrue (w : WidgetSt) : WidgetSt :=
  let cls := if w.old_class = [] then w.classes else w.old_class
  { viz := true, classes := removeDNone cls, old_class := w.old_class }

/-- Embeds the `viz = False` branch of `SepalWidget._set_viz`:
`self.class_list.remove("d-none")`, save `old_class`, set `class_` to d-none. -/
def setVizFalse (w : WidgetSt) : WidgetSt :=
  { viz := false, classes := ["d-none"], old_class := removeDNone w.classes }

/-- Embeds `SepalWidget.hide`: sets `viz = False`; the traitlets observer
`_set_viz` only fires when the value actually changes. -/
def widgetHide (w : WidgetSt) : WidgetSt :=
  if w.viz then setVizFalse w else w

/-- Embeds `SepalWidget.show`: sets `viz = True`; the observer only fires on a
change. -/
def widgetShow (w : WidgetSt) : WidgetSt :=
  if w.viz then w else setVizTrue w

/-- Embeds `SepalWidget.toggle_viz`: `self.viz = not self.viz`, which always
changes the trait and hence always fires the observer. -/
def widgetToggleViz (w : WidgetSt) : WidgetSt :=
  if w.viz then setVizFalse w else setVizTrue w

/-! ## MethodSelect (aoi/aoi_view.py and aoi/local_aoi/aoi_view.py)

Python dicts with string keys are embedded as association lists in insertion
order; the tables of interest never carry duplicate keys. -/

/-- One entry of the method lookup table: the display name and the
admin/custom grouping stored under the Python keys `name` and `type`. -/
structure MethodInfo where
  name : String
  type_ : String
deriving DecidableEq, Repr, Inhabited

/-- A Python dict from method keys to method info, in insertion order. -/
abbrev Table := List (String × MethodInfo)

/-- The admin grouping tag (`ADMIN`, an opaque message string). -/
def ADMIN : String := "administrative"

/-- The custom grouping tag (`CUSTOM`, an opaque message string). -/
def CUSTOM : String := "custom"

/-- The module-level `select_methods` table of aoi/local_aoi/aoi_view.py
(lines 20-27).  The display names come from the message dictionary, which is
not under src/ and which no claim inspects; placeholders stand for them. -/
def select_methods : Table :=
  [("ADMIN0", ⟨"Administrative level 0", ADMIN⟩),
   ("ADMIN1", ⟨"Administrative level 1", ADMIN⟩),
   ("ADMIN2", ⟨"Administrative level 2", ADMIN⟩),
   ("SHAPE", ⟨"Vector file", CUSTOM⟩),
   ("DRAW", ⟨"Drawn shape", CUSTOM⟩),
   ("POINTS", ⟨"Points file", CUSTOM⟩)]

/-- Modelled from the spec: `AoiModel.METHODS`, used as `select_methods` by
aoi/aoi_view.py (aoi/aoi_model.py is not under src/).  The keys and their
admin/custom grouping are taken from the AoiView docstring, which lists the
available methods as ADMIN0, ADMIN1, ADMIN2, SHAPE, DRAW, POINTS and ASSET,
and from the spec's enumeration of accepted input shapes.  Display names are
opaque placeholders. -/
def aoiModelMethods : Table :=
  select_methods ++ [("ASSET", ⟨"GEE asset", CUSTOM⟩)]

/-- The test `m[0] == '-'` on a string, as a total Bool (only used under a
non-emptiness guard). -/
def dashHead (m : String) : Bool := m.front == '-'

/-- The Python expression `m[0] == '-'`: IndexError on the empty string. -/
def dashAt0 (m : String) : Except PyErr Bool :=
  if m.isEmpty then .error .indexError else .ok (dashHead m)

/-- Python `any(m[0] == '-' for m in ms)`: short-circuits at the first True. -/
def pyAnyDash : List String → Except PyErr Bool
  | [] => .ok false
  | m :: r =>
    match dashAt0 m with
    | .error e => .error e
    | .ok true => .ok true
    | .ok false => pyAnyDash r

/-- Python `all(m[0] == '-' for m in ms)`: short-circuits at the first False. -/
def pyAllDash : List String → Except PyErr Bool
  | [] => .ok true
  | m :: r =>
    match dashAt0 m with
    | .error e => .error e
    | .ok false => .ok false
    | .ok true => pyAllDash r

/-- Python `dict[k]`: KeyError when the key is absent. -/
def pyDictLookup (tbl : Table) (k : String) : Except PyErr MethodInfo :=
  match tbl.lookup k with
  | some val => .ok val
  | none => .error .keyError

/-- Python `{k: select_methods[k] for k in methods}`: pairs in first-insertion
order, later duplicates overwriting in place, KeyError on a missing key. -/
def pyDictOfKeys (tbl : Table) : List String → Except PyErr Table
  | [] => .ok []
  | k :: r =>
    match pyDictLookup tbl k with
    | .error e => .error e
    | .ok val =>
      match pyDictOfKeys tbl r with
      | .error e => .error e
      | .ok rest => .ok ((k, val) :: rest.filter (fun p => p.1 ≠ k))

/-- Python `dict.pop(k)` applied in sequence, without a default: KeyError as
soon as a key is absent. -/
def pyPopSeq : Table → List String → Except PyErr Table
  | tbl, [] => .ok tbl
  | tbl, k :: r =>
    if (tbl.map Prod.fst).contains k then
      pyPopSeq (tbl.filter (fun p => p.1 ≠ k)) r
    else .error .keyError

/-- The `methods` argument of the MethodSelect constructors: one of the three
keyword strings, a list, or anything else. -/
inductive MethodsArg where
  | all
  | admin
  | custom
  | list (ms : List String)
  | other
deriving DecidableEq, Repr

/-- The guard `if any(m[0] == '-' for m in methods) != all(...)` followed by
the branch test `methods[0][0] == '-'`: returns which list branch is taken. -/
def listBranchTest (ms : List String) : Except PyErr Bool :=
  match pyAnyDash ms with
  | .error e => .error e
  | .ok a =>
    match pyAllDash ms with
    | .error e => .error e
    | .ok b =>
      if a ≠ b then .error .mixedError
      else
        match ms with
        | [] => .error .indexError
        | m :: _ => dashAt0 m

/-- Embeds lines 37-64 of `MethodSelect.__init__` (aoi/aoi_view.py): the
computation of `self.methods` from the `methods` argument, before the gee and
map_ pruning.  The boolean records whether `self.methods` aliases the
module-level `select_methods` dict, which only the ALL branch assigns
directly. -/
def methodSelectBase (tbl : Table) : MethodsArg → Except PyErr (Table × Bool)
  | .all => .ok (tbl, true)
  | .admin => .ok (tbl.filter (fun p => p.2.type_ == ADMIN), false)
  | .custom => .ok (tbl.filter (fun p => p.2.type_ == CUSTOM), false)
  | .list ms =>
    match listBranchTest ms with
    | .error e => .error e
    | .ok true =>
      .ok (tbl.filter (fun p => !((ms.map (fun m => m.drop 1)).contains p.1)), false)
    | .ok false =>
      match pyDictOfKeys tbl ms with
      | .error e => .error e
      | .ok sel => .ok (sel, false)
  | .other => .error .notUnderstood

/-- Embeds `MethodSelect.__init__` of aoi/aoi_view.py in full: computes
`self.methods` together with the resulting state of the module-level table,
which the pops `self.methods.pop("ASSET", None)` (when gee is not True) and
`self.methods.pop("DRAW", None)` (when map_ is None) mutate exactly when the
ALL branch aliased it. -/
def methodSelectInit (gee hasMap : Bool) (arg : MethodsArg) (tbl : Table) :
    Except PyErr (Table × Table) :=
  match methodSelectBase tbl arg with
  | .error e => .error e
  | .ok (base, aliased) =>
    let m1 := if gee then base else base.filter (fun p => p.1 ≠ "ASSET")
    let m2 := if hasMap then m1 else m1.filter (fun p => p.1 ≠ "DRAW")
    .ok (m2, if aliased then m2 else tbl)

/-- Embeds `MethodSelect.__init__` of aoi/local_aoi/aoi_view.py: the same
branch structure without the gee and map_ pruning, but its removal branch runs
`self.methods = select_methods` followed by `self.methods.pop(k[1:])` for each
entry, mutating the shared module-level table. -/
def localMethodSelectInit (arg : MethodsArg) (tbl : Table) :
    Except PyErr (Table × Table) :=
  match arg with
  | .all => .ok (tbl, tbl)
  | .admin => .ok (tbl.filter (fun p => p.2.type_ == ADMIN), tbl)
  | .custom => .ok (tbl.filter (fun p => p.2.type_ == CUSTOM), tbl)
  | .list ms =>
    match listBranchTest ms with
    | .error e => .error e
    | .ok true =>
      match pyPopSeq tbl (ms.map (fun m => m.drop 1)) with
      | .error e => .error e
      | .ok t => .ok (t, t)
    | .ok false =>
      match pyDictOfKeys tbl ms with
      | .error e => .error e
      | .ok sel => .ok (sel, tbl)
  | .other => .error .notUnderstood

/-- The facts established by `AoiView.__init__` (aoi/aoi_view.py lines
253-329) that the claims examine: the selectable methods of `w_method`, the
resulting module table, the component dict keys, whether an asset widget was
created, and the model traits bound to widgets. -/
structure AoiViewInitSt where
  methods : Table
  moduleTable : Table
  componentKeys : List String
  hasAssetWidget : Bool
  boundTraits : List String
deriving DecidableEq, Repr

/-- Embeds the parts of `AoiView.__init__` the claims examine.  The component
dict always holds the six base widgets; the asset field is created, added to
the components and bound to the model only when `self.ee` holds. -/
def aoiViewInit (arg : MethodsArg) (gee hasMap : Bool) (tbl : Table) :
    Except PyErr AoiViewInitSt :=
  match methodSelectInit gee hasMap arg tbl with
  | .error e => .error e
  | .ok (m, tbl') =>
    .ok { methods := m
          moduleTable := tbl'
          componentKeys :=
            ["ADMIN0", "ADMIN1", "ADMIN2", "SHAPE", "POINTS", "DRAW"]
              ++ (if gee then ["ASSET"] else [])
          hasAssetWidget := gee
          boundTraits :=
            ["admin", "admin", "admin", "vector_json", "point_json",
             "method", "name"] ++ (if gee then ["asset_name"] else []) }

/-! ## AoiView._activate (aoi/aoi_view.py lines 385-412) -/

/-- The reactive state of one component widget: its visibility and its
`v_model` input value. -/
structure CompSt where
  viz : Bool
  v_model : Option String
deriving DecidableEq, Repr

/-- The state of the alert widget: its message children and visibility. -/
structure AlertSt where
  msg : Option String
  viz : Bool
deriving DecidableEq, Repr

/-- Embeds `Alert.reset` (sepalwidgets.py lines 96-100): empty the children
and hide the alert. -/
def alertReset (_ : AlertSt) : AlertSt := { msg := none, viz := false }

/-- The state `_activate` acts on: the alert, the drawing-control visibility
when a map is linked, and the component dict keyed like select_methods.  The
DRAW entry of the dict is the same object as `self.w_draw`. -/
structure ActivateSt where
  alert : AlertSt
  dcShown : Option Bool
  comps : List (String × CompSt)
deriving DecidableEq, Repr

/-- Embeds `AoiView._activate`: reset the alert, show the drawing control
exactly for DRAW, reset every component input, show exactly the component
whose key is the new selection, then set `w_draw.v_model` to None when the
selection is None and to the generated manual name otherwise. -/
def activate (newSel : Option String) (now : String) (s : ActivateSt) :
    ActivateSt :=
  { alert := alertReset s.alert
    dcShown := s.dcShown.map (fun _ => newSel = some "DRAW")
    comps := s.comps.map (fun p =>
      (p.1,
       { viz := newSel = some p.1
         v_model :=
           if p.1 = "DRAW" then
             match newSel with
             | none => none
             | some _ => some ("Manual_aoi_" ++ now)
           else none })) }

/-! ## AdminField (aoi/aoi_view.py lines 86-181) -/

/-- One row of the administrative-boundary table, carrying the code and name
columns for levels 0, 1 and 2. -/
structure AdminRow where
  code0 : String
  code1 : String
  code2 : String
  name0 : String
  name1 : String
  name2 : String
deriving DecidableEq, Repr

/-- The code column `CODE[ee].format(level)` of a row. -/
def codeAt (r : AdminRow) : Nat → String
  | 0 => r.code0
  | 1 => r.code1
  | _ => r.code2

/-- The name column `NAME[ee].format(level)` of a row. -/
def nameAt (r : AdminRow) : Nat → String
  | 0 => r.name0
  | 1 => r.name1
  | _ => r.name2

/-- One entry of a Select item list: the displayed text and its value. -/
structure SelectItem where
  text : String
  value : String
deriving DecidableEq, Repr

/-- Models `pandas.drop_duplicates(subset=key)`: keep the first row carrying
each key value. -/
def dedupByKeyAux (key : AdminRow → String) :
    List String → List AdminRow → List AdminRow
  | _, [] => []
  | seen, r :: rest =>
    if seen.contains (key r) then dedupByKeyAux key seen rest
    else r :: dedupByKeyAux key (key r :: seen) rest

/-- Entry point of the drop_duplicates model. -/
def dedupByKey (key : AdminRow → String) (rows : List AdminRow) :
    List AdminRow :=
  dedupByKeyAux key [] rows

/-- Python truthiness of an optional string: None and the empty string are
falsy. -/
def pyTruthyStr : Option String → Bool
  | none => false
  | some s => !s.isEmpty

/-- Embeds `AdminField.get_items`: read the table, drop duplicate codes of
this level, sort by the level name (stable), filter by the parent-level code
when the filter is truthy, and format the rows as select items.  The string
normalisation `su.normalize_str` is not under src/ and is passed as the
parameter `norm`. -/
def get_items (norm : String → String) (tbl : List AdminRow) (level : Nat)
    (filter_ : Option String) : List SelectItem :=
  let df := dedupByKey (fun r => codeAt r level) tbl
  let df := df.mergeSort (fun a b => nameAt a level ≤ nameAt b level)
  let df :=
    if pyTruthyStr filter_ then
      df.filter (fun r => codeAt r (level - 1) = filter_.getD "")
    else df
  df.map (fun r => { text := norm (nameAt r level), value := codeAt r level })

/-- The reactive state of an AdminField: its admin level, selection and item
list. -/
structure AdminFieldSt where
  level : Nat
  v_model : Option String
  items : List SelectItem
deriving DecidableEq, Repr

/-- Embeds `AdminField._update`, the observer fired when the parent
selector's v_model changes: reset this field's v_model to None, then
recompute the item list from the table only when the new parent value is
truthy. -/
def adminFieldUpdate (norm : String → String) (tbl : List AdminRow)
    (changeNew : Option String) (f : AdminFieldSt) : AdminFieldSt :=
  let f := { f with v_model := none }
  if pyTruthyStr changeNew then
    { f with items := get_items norm tbl f.level changeNew }
  else f

/-! ## AoiView._update_aoi (aoi/aoi_view.py lines 331-359) -/

/-- The payload of a map layer: an Earth Engine feature collection, an
ipygeojson geometry, or anything else already on the map.  Model-derived
payloads are identified by an abstract value. -/
inductive LayerKind where
  | eeFeatureCollection (fc : Nat)
  | ipygeojson (g : Nat)
  | plain
deriving DecidableEq, Repr

/-- A named map layer. -/
structure Layer where
  name : String
  kind : LayerKind
deriving DecidableEq, Repr

/-- The state of a linked SepalMap: its layers, the bounds last zoomed to,
the drawing-control visibility and the geojson drawn on the control. -/
structure MapSt where
  layers : List Layer
  zoomedBounds : Option Nat
  dcVisible : Bool
  dcJson : Nat
deriving DecidableEq, Repr

/-- The attributes of the AoiModel that `_update_aoi` reads or writes;
abstract values identify the geographic payloads. -/
structure ModelSt where
  geo_json : Nat
  feature_collection : Nat
  bounds : Nat
  ipygeojsonData : Nat
deriving DecidableEq, Repr

/-- The state of an AoiView during `_update_aoi`. -/
structure AoiViewSt where
  ee : Bool
  updated : Nat
  map_ : Option MapSt
  model : ModelSt
deriving DecidableEq, Repr

/-- Modelled from the spec: `SepalMap.remove_layer("aoi", none_ok=True)`
(sepal_ui/mapping/sepal_map.py is not under src/) removes any existing layer
named aoi, as the inlined loop of the local variant also does. -/
def removeAoiLayers (ls : List Layer) : List Layer :=
  ls.filter (fun l => l.name ≠ "aoi")

/-- Modelled from the spec: `AoiModel.get_ipygeojson` republishes the model's
display-ready geometry as the aoi layer. -/
def model_get_ipygeojson (m : ModelSt) : Layer :=
  { name := "aoi", kind := .ipygeojson m.ipygeojsonData }

/-- The single layer `_update_aoi` adds: `add_ee_layer(feature_collection,
..., "aoi")` when ee is enabled, `add_layer(get_ipygeojson())` otherwise. -/
def aoiLayerOf (ee : Bool) (m : ModelSt) : Layer :=
  if ee then { name := "aoi", kind := .eeFeatureCollection m.feature_collection }
  else model_get_ipygeojson m

/-- The model state `set_object` is called on: when a map is linked the drawn
geojson is first copied into `model.geo_json`. -/
def modelBeforeSetObject (s : AoiViewSt) : ModelSt :=
  match s.map_ with
  | some mp => { s.model with geo_json := mp.dcJson }
  | none => s.model

/-- Embeds `AoiView._update_aoi`.  `AoiModel.set_object` is not under src/
and is passed as the function parameter `setObject`; it may raise.  On
success, when a map is linked: remove the aoi layers, zoom to the model's
total bounds, add the single model-derived layer and hide the drawing
control; finally increment `updated`. -/
def update_aoi (setObject : ModelSt → Except Unit ModelSt) (s : AoiViewSt) :
    Except Unit AoiViewSt :=
  match setObject (modelBeforeSetObject s) with
  | .error e => .error e
  | .ok m1 =>
    let map' := s.map_.map (fun mp =>
      { mp with
        layers := removeAoiLayers mp.layers ++ [aoiLayerOf s.ee m1]
        zoomedBounds := some m1.bounds
        dcVisible := false })
    .ok { s with model := m1, map_ := map', updated := s.updated + 1 }

/-! ## utils.get_iso_3 (scripts/utils.py lines 57-71) -/

/-- One row of country_code.csv: the country name and its ISO 3166-1 alpha-3
code. -/
structure CountryRow where
  country_na : String
  iso3 : String
deriving DecidableEq, Repr

/-- Embeds `utils.get_iso_3`: select the rows matching the country name; when
at least one exists return its alpha-3 code, otherwise the function reaches
`return code` with the local `code` never assigned and raises
UnboundLocalError. -/
def get_iso_3 (tbl : List CountryRow) (country_name : String) :
    Except PyErr String :=
  match tbl.filter (fun r => r.country_na = country_name) with
  | r :: _ => .ok r.iso3
  | [] => .error .unboundLocalError

/-! ## Claim theorems: C7 and C8 -/

/-- C7: for every FullScreenControl, the button icon equals ICONS[zoomed] after
construction and after every toggle_fullscreen call; each toggle negates the
zoomed flag and sends METHODS[zoomed]; two consecutive toggles restore the
original zoomed state and icon. -/
theorem C7_fullscreen_toggle (b : Bool) (c : FullScreenControlSt) :
    (fullScreenInit b).btnLogo = ICONS.getD (boolIdx (fullScreenInit b).zoomed) ""
    ∧ (toggle_fullscreen c).1.btnLogo
        = ICONS.getD (boolIdx (toggle_fullscreen c).1.zoomed) ""
    ∧ (toggle_fullscreen c).1.zoomed = !c.zoomed
    ∧ (toggle_fullscreen c).2 = METHODS.getD (boolIdx (toggle_fullscreen c).1.zoomed) ""
    ∧ (toggle_fullscreen (toggle_fullscreen c).1).1.zoomed = c.zoomed
    ∧ (c.btnLogo = ICONS.getD (boolIdx c.zoomed) "" →
        (toggle_fullscreen (toggle_fullscreen c).1).1 = c) := by
  obtain ⟨z, logo⟩ := c
  refine ⟨rfl, ?_, ?_, rfl, ?_, ?_⟩ <;> cases z <;> simp [toggle_fullscreen] <;>
    intro h <;> simp [h, ICONS, boolIdx]

/-- Witness for C7: the hypothesis of the last conjunct discharged on the
freshly constructed control. -/
theorem C7_fullscreen_toggle_witness :
    (toggle_fullscreen (toggle_fullscreen (fullScreenInit false)).1).1
      = fullScreenInit false :=
  (C7_fullscreen_toggle false (fullScreenInit false)).2.2.2.2.2 rfl

/-- C8: get_theme returns "dark" whenever the configuration file does not exist
or holds no theme entry, and returns the stored theme entry otherwise; the host
toolkit dark flag is set to True exactly when the returned theme is "dark". -/
theorem C8_get_theme (c : ConfigFileSt) :
    ((c.isFile = false ∨ c.themeEntry = none) → (get_theme c).1 = "dark")
    ∧ (∀ t, c.isFile = true → c.themeEntry = some t → (get_theme c).1 = t)
    ∧ ((get_theme c).2 = true ↔ (get_theme c).1 = "dark") := by
  obtain ⟨f, e⟩ := c
  refine ⟨?_, ?_, ?_⟩
  · rintro (h | h) <;> simp_all [get_theme, configGetTheme]
  · rintro t rfl rfl
    simp [get_theme, configGetTheme]
  · cases f <;> simp only [get_theme] <;> split <;> simp_all

/-- Witness for C8: evaluated on a missing file, on a file without the entry,
and on a stored "light" entry. -/
theorem C8_get_theme_witness :
    (get_theme ⟨false, none⟩).1 = "dark"
    ∧ (get_theme ⟨true, none⟩).1 = "dark"
    ∧ (get_theme ⟨true, some "light"⟩).1 = "light" :=
  ⟨(C8_get_theme ⟨false, none⟩).1 (Or.inl rfl),
   (C8_get_theme ⟨true, none⟩).1 (Or.inr rfl),
   (C8_get_theme ⟨true, some "light"⟩).2.1 "light" rfl rfl⟩

/-- C6 as stated is false: on a widget that is already hidden (viz = False,
class_ reduced to d-none, a previous class saved in old_class), hide() does
nothing and show() restores the saved old class, not the value class_ held
just before this hide() call. -/
theorem C6_viz_roundtrip_counterexample :
    (widgetShow (widgetHide ⟨false, ["d-none"], ["foo"]⟩)).classes
      ≠ (⟨false, ["d-none"], ["foo"]⟩ : WidgetSt).classes := by
  decide

/-- C6 amended: for every SepalWidget that is currently visible and whose
class attribute does not contain the d-none class, calling hide() and then
show() restores the class attribute (and leaves the widget visible); calling
toggle_viz() twice always restores the viz flag to its original value. -/
theorem C6_viz_roundtrip (w : WidgetSt) :
    (w.viz = true → "d-none" ∉ w.classes →
      (widgetShow (widgetHide w)).classes = w.classes
      ∧ (widgetShow (widgetHide w)).viz = true)
    ∧ (widgetToggleViz (widgetToggleViz w)).viz = w.viz := by
  obtain ⟨z, cs, old⟩ := w
  constructor
  · rintro rfl hcs
    have hfix : removeDNone cs = cs := by
      apply List.filter_eq_self.mpr
      intro a ha
      simp only [ne_eq, decide_eq_true_eq]
      intro h
      exact hcs (h ▸ ha)
    simp only [widgetHide, widgetShow, setVizFalse, setVizTrue, if_true, hfix]
    rcases eq_or_ne cs [] with rfl | hne
    · simp [removeDNone]
    · simp [hne, hfix]
  · cases z <;> simp [widgetToggleViz, setVizFalse, setVizTrue]

/-- Witness for C6: the round trip evaluated on a visible widget carrying the
class tokens ma-2 and pa-1. -/
theorem C6_viz_roundtrip_witness :
    (widgetShow (widgetHide ⟨true, ["ma-2", "pa-1"], []⟩)).classes
      = ["ma-2", "pa-1"] :=
  ((C6_viz_roundtrip ⟨true, ["ma-2", "pa-1"], []⟩).1 rfl (by decide)).1

/-! ## Helper lemmas for the MethodSelect theorems -/

theorem dashAt0_of_ne (m : String) (h : m ≠ "") : dashAt0 m = .ok (dashHead m) := by
  simp [dashAt0, String.isEmpty_iff, h]

theorem pyAnyDash_eq (ms : List String) (h : ∀ m ∈ ms, m ≠ "") :
    pyAnyDash ms = .ok (ms.any dashHead) := by
  induction ms with
  | nil => rfl
  | cons m r ih =>
    have hm := h m (by simp)
    have hr : ∀ x ∈ r, x ≠ "" := fun x hx => h x (by simp [hx])
    simp only [pyAnyDash, dashAt0_of_ne m hm, List.any_cons]
    cases hd : dashHead m <;> simp [hd, ih hr]

theorem pyAllDash_eq (ms : List String) (h : ∀ m ∈ ms, m ≠ "") :
    pyAllDash ms = .ok (ms.all dashHead) := by
  induction ms with
  | nil => rfl
  | cons m r ih =>
    have hm := h m (by simp)
    have hr : ∀ x ∈ r, x ≠ "" := fun x hx => h x (by simp [hx])
    simp only [pyAllDash, dashAt0_of_ne m hm, List.all_cons]
    cases hd : dashHead m <;> simp [hd, ih hr]

theorem pyDictOfKeys_eq (tbl : Table) (ms : List String) (hnd : ms.Nodup)
    (hmem : ∀ k ∈ ms, (tbl.lookup k).isSome) :
    pyDictOfKeys tbl ms
      = .ok (ms.map (fun k => (k, (tbl.lookup k).getD default))) := by
  induction ms with
  | nil => rfl
  | cons k r ih =>
    obtain ⟨hk, hr⟩ := List.nodup_cons.mp hnd
    obtain ⟨v, hv⟩ := Option.isSome_iff_exists.mp (hmem k (by simp))
    have hlk : pyDictLookup tbl k = .ok v := by simp [pyDictLookup, hv]
    have hrec := ih hr (fun x hx => hmem x (by simp [hx]))
    simp only [pyDictOfKeys, hlk, hrec]
    have hfilter :
        (r.map (fun x => (x, (tbl.lookup x).getD default))).filter
            (fun p => p.1 ≠ k)
          = r.map (fun x => (x, (tbl.lookup x).getD default)) := by
      apply List.filter_eq_self.mpr
      intro p hp
      obtain ⟨x, hx, rfl⟩ := List.mem_map.mp hp
      simp only [ne_eq, decide_eq_true_eq]
      exact fun hxk => hk (hxk ▸ hx)
    rw [hfilter]
    simp [hv]

theorem methodSelectBase_aliased (tbl : Table) (arg : MethodsArg) (b : Table)
    (al : Bool) (hne : arg ≠ MethodsArg.all)
    (h : methodSelectBase tbl arg = .ok (b, al)) : al = false := by
  cases arg with
  | all => exact absurd rfl hne
  | admin => simp only [methodSelectBase] at h; simp_all
  | custom => simp only [methodSelectBase] at h; simp_all
  | other => simp only [methodSelectBase] at h; simp_all
  | list ms =>
    simp only [methodSelectBase] at h
    split at h
    · simp_all
    · simp_all
    · split at h <;> simp_all

theorem keys_filter_ne (l : Table) (k : String) :
    k ∉ (l.filter (fun p => p.1 ≠ k)).map Prod.fst := by
  intro h
  obtain ⟨p, hp, hpk⟩ := List.mem_map.mp h
  have h2 := List.of_mem_filter hp
  simp [hpk] at h2

/-! ## Claim theorems: C2, C3, C9 -/

/-- C2 as stated is false on the empty list: no entry mixes prefixes (and
"every entry is prefixed" holds vacuously, promising the full table), yet the
constructor raises, because `any([]) = False` differs from `all([]) = True`
and the guard treats that as mixing. -/
theorem C2_method_select_counterexample :
    methodSelectBase select_methods (.list []) = .error .mixedError := by
  decide

/-- C2 amended: for every non-empty list argument whose entries are non-empty
strings: mixing dash-prefixed and unprefixed entries raises; if every entry is
dash-prefixed the method table equals select_methods with the named keys
removed; if no entry is prefixed, the entries are distinct and each names a
key, the table equals exactly the named entries in the given order; the empty
list also raises, and a methods argument that is neither a keyword nor a list
raises. -/
theorem C2_method_select_list (tbl : Table) (ms : List String)
    (hne : ms ≠ []) (hstr : ∀ m ∈ ms, m ≠ "") :
    ((∃ a ∈ ms, dashHead a = true) → (∃ b ∈ ms, dashHead b = false) →
        methodSelectBase tbl (.list ms) = .error .mixedError)
    ∧ ((∀ m ∈ ms, dashHead m = true) →
        methodSelectBase tbl (.list ms)
          = .ok (tbl.filter
              (fun p => !((ms.map (fun m => m.drop 1)).contains p.1)), false))
    ∧ ((∀ m ∈ ms, dashHead m = false) → ms.Nodup →
        (∀ k ∈ ms, (tbl.lookup k).isSome) →
        methodSelectBase tbl (.list ms)
          = .ok (ms.map (fun k => (k, (tbl.lookup k).getD default)), false))
    ∧ methodSelectBase tbl (.list []) = .error .mixedError
    ∧ methodSelectBase tbl .other = .error .notUnderstood := by
  obtain ⟨m, r, rfl⟩ := List.exists_cons_of_ne_nil hne
  have hany := pyAnyDash_eq (m :: r) hstr
  have hall := pyAllDash_eq (m :: r) hstr
  have hm := hstr m (by simp)
  refine ⟨?_, ?_, ?_, rfl, rfl⟩
  · rintro ⟨a, ha, hda⟩ ⟨b, hb, hdb⟩
    have h1 : (m :: r).any dashHead = true := List.any_eq_true.mpr ⟨a, ha, hda⟩
    have h2 : (m :: r).all dashHead = false := by
      rcases hall2 : (m :: r).all dashHead with _ | _
      · rfl
      · exact absurd (List.all_eq_true.mp hall2 b hb) (by simp [hdb])
    simp [methodSelectBase, listBranchTest, hany, hall, h1, h2]
  · intro hd
    have h1 : (m :: r).any dashHead = true :=
      List.any_eq_true.mpr ⟨m, by simp, hd m (by simp)⟩
    have h2 : (m :: r).all dashHead = true := List.all_eq_true.mpr hd
    simp [methodSelectBase, listBranchTest, hany, hall, h1, h2,
      dashAt0_of_ne m hm, hd m (by simp)]
  · intro hd hnd hmem
    have h1 : (m :: r).any dashHead = false := by
      rcases hany2 : (m :: r).any dashHead with _ | _
      · rfl
      · obtain ⟨a, ha, hda⟩ := List.any_eq_true.mp hany2
        exact absurd hda (by simp [hd a ha])
    have h2 : (m :: r).all dashHead = false := by
      rcases hall2 : (m :: r).all dashHead with _ | _
      · rfl
      · exact absurd (List.all_eq_true.mp hall2 m (by simp)) (by simp [hd m (by simp)])
    simp [methodSelectBase, listBranchTest, hany, hall, h1, h2,
      dashAt0_of_ne m hm, hd m (by simp), pyDictOfKeys_eq tbl (m :: r) hnd hmem]

/-- Witness for C2: an unprefixed selection list evaluated on the concrete
select_methods table. -/
theorem C2_method_select_list_witness :
    methodSelectBase select_methods (.list ["ADMIN1", "SHAPE"])
      = .ok ([("ADMIN1", ⟨"Administrative level 1", ADMIN⟩),
              ("SHAPE", ⟨"Vector file", CUSTOM⟩)], false) :=
  ((C2_method_select_list select_methods ["ADMIN1", "SHAPE"] (by decide)
      (by decide)).2.2.1 (by decide) (by decide) (by decide)).trans (by decide)

/-- C3: with gee disabled the ASSET method is absent from the selectable
methods, no asset widget is created or bound to the model; without a linked
map the DRAW method is absent from the selectable methods. -/
theorem C3_gee_and_map_pruning (tbl : Table) (arg : MethodsArg)
    (gee hasMap : Bool) :
    (∀ m t, methodSelectInit false hasMap arg tbl = .ok (m, t) →
        "ASSET" ∉ m.map Prod.fst)
    ∧ (∀ m t, methodSelectInit gee false arg tbl = .ok (m, t) →
        "DRAW" ∉ m.map Prod.fst)
    ∧ (∀ v, aoiViewInit arg false hasMap tbl = .ok v →
        "ASSET" ∉ v.methods.map Prod.fst
        ∧ v.hasAssetWidget = false
        ∧ "asset_name" ∉ v.boundTraits
        ∧ "ASSET" ∉ v.componentKeys)
    ∧ (∀ v, aoiViewInit arg gee false tbl = .ok v →
        "DRAW" ∉ v.methods.map Prod.fst) := by
  have core1 : ∀ hm : Bool, ∀ m t,
      methodSelectInit false hm arg tbl = .ok (m, t) →
      "ASSET" ∉ m.map Prod.fst := by
    intro hm m t h
    unfold methodSelectInit at h
    cases hbase : methodSelectBase tbl arg with
    | error e => rw [hbase] at h; simp at h
    | ok p =>
      obtain ⟨base, al⟩ := p
      rw [hbase] at h
      simp only [Bool.false_eq_true, if_false, Except.ok.injEq, Prod.mk.injEq] at h
      obtain ⟨rfl, -⟩ := h
      cases hm with
      | true => simp
      | false =>
        intro hmem
        have hsub : ((base.filter (fun p => p.1 ≠ "ASSET")).filter
              (fun p => p.1 ≠ "DRAW")).map Prod.fst
            ⊆ (base.filter (fun p => p.1 ≠ "ASSET")).map Prod.fst :=
          List.map_subset _ (List.filter_subset' _)
        exact keys_filter_ne base "ASSET" (hsub (by simp at hmem ⊢))
  have core2 : ∀ ge : Bool, ∀ m t,
      methodSelectInit ge false arg tbl = .ok (m, t) →
      "DRAW" ∉ m.map Prod.fst := by
    intro ge m t h
    unfold methodSelectInit at h
    cases hbase : methodSelectBase tbl arg with
    | error e => rw [hbase] at h; simp at h
    | ok p =>
      obtain ⟨base, al⟩ := p
      rw [hbase] at h
      simp only [Bool.false_eq_true, if_false, Except.ok.injEq, Prod.mk.injEq] at h
      obtain ⟨rfl, -⟩ := h
      exact keys_filter_ne _ "DRAW"
  refine ⟨core1 hasMap, core2 gee, ?_, ?_⟩
  · intro v h
    unfold aoiViewInit at h
    cases hsel : methodSelectInit false hasMap arg tbl with
    | error e => rw [hsel] at h; simp at h
    | ok p =>
      obtain ⟨m, t⟩ := p
      rw [hsel] at h
      simp only [Except.ok.injEq] at h
      subst h
      exact ⟨core1 hasMap m t hsel, rfl, by simp, by simp⟩
  · intro v h
    unfold aoiViewInit at h
    cases hsel : methodSelectInit gee false arg tbl with
    | error e => rw [hsel] at h; simp at h
    | ok p =>
      obtain ⟨m, t⟩ := p
      rw [hsel] at h
      simp only [Except.ok.injEq] at h
      subst h
      exact core2 gee m t hsel

/-- Witness for C3: a gee-disabled ALL construction on the modelled full
table. -/
theorem C3_gee_and_map_pruning_witness :
    "ASSET" ∉ ((aoiModelMethods.filter (fun p => p.1 ≠ "ASSET")).map Prod.fst) :=
  (C3_gee_and_map_pruning aoiModelMethods .all true true).1
    (aoiModelMethods.filter (fun p => p.1 ≠ "ASSET"))
    (aoiModelMethods.filter (fun p => p.1 ≠ "ASSET"))
    (by decide)

/-- C9 as stated is false on the local MethodSelect: a removal list aliases
and pops the module-level select_methods table, so a later ALL construction
returns the mutated table, not the complete one. -/
theorem C9_select_methods_mutation_counterexample :
    localMethodSelectInit (.list ["-POINTS"]) select_methods
      = .ok (select_methods.take 5, select_methods.take 5)
    ∧ localMethodSelectInit .all (select_methods.take 5)
      = .ok (select_methods.take 5, select_methods.take 5)
    ∧ select_methods.take 5 ≠ select_methods := by
  decide

/-- C9 amended: in the current (aoi/aoi_view.py) MethodSelect, every
constructor argument other than ALL leaves the module-level table unchanged;
constructing with ALL while gee is enabled and a map is linked performs no pop
and returns the complete table, so a removal list followed by ALL yields the
complete table the second time. -/
theorem C9_no_table_mutation (tbl : Table) (gee hasMap : Bool)
    (arg : MethodsArg) :
    (arg ≠ MethodsArg.all → ∀ m t,
        methodSelectInit gee hasMap arg tbl = .ok (m, t) → t = tbl)
    ∧ methodSelectInit true true .all tbl = .ok (tbl, tbl) := by
  constructor
  · intro hne m t h
    unfold methodSelectInit at h
    cases hbase : methodSelectBase tbl arg with
    | error e => rw [hbase] at h; simp at h
    | ok p =>
      obtain ⟨base, al⟩ := p
      have hal : al = false := methodSelectBase_aliased tbl arg base al hne hbase
      subst hal
      rw [hbase] at h
      simp only [Bool.false_eq_true, if_false, Except.ok.injEq, Prod.mk.injEq] at h
      exact h.2.symm
  · rfl

/-- Witness for C9: a removal list on the modelled full table leaves it
untouched. -/
theorem C9_no_table_mutation_witness :
    MethodsArg.list ["-POINTS"] ≠ MethodsArg.all
    ∧ aoiModelMethods = aoiModelMethods :=
  ⟨by decide,
   (C9_no_table_mutation aoiModelMethods true true (.list ["-POINTS"])).1
     (by decide)
     (aoiModelMethods.filter
       (fun p => !((["-POINTS"].map (fun m => m.drop 1)).contains p.1)))
     aoiModelMethods (by decide)⟩

/-! ## Helper lemmas for the AdminField theorems -/

theorem mem_of_mem_dedupByKeyAux (key : AdminRow → String) (seen : List String)
    (rows : List AdminRow) (r : AdminRow)
    (h : r ∈ dedupByKeyAux key seen rows) : r ∈ rows := by
  induction rows generalizing seen with
  | nil => simp [dedupByKeyAux] at h
  | cons a rest ih =>
    simp only [dedupByKeyAux] at h
    split at h
    · exact List.mem_cons_of_mem a (ih _ h)
    · rcases List.mem_cons.mp h with rfl | h2
      · exact List.mem_cons_self _ _
      · exact List.mem_cons_of_mem a (ih _ h2)

theorem mem_of_mem_dedupByKey (key : AdminRow → String) (rows : List AdminRow)
    (r : AdminRow) (h : r ∈ dedupByKey key rows) : r ∈ rows :=
  mem_of_mem_dedupByKeyAux key [] rows r h

/-! ## Claim theorems: C1, C4, C5, C10 -/

/-- C1: whenever the validation handler runs and set_object completes without
raising, `updated` increases by exactly 1; when a map is linked, any layer
named aoi is removed, the map is zoomed to the model's total bounds and
exactly one new model-derived layer is added: the Earth Engine feature
collection when ee is enabled, the ipygeojson layer otherwise. -/
theorem C1_update_aoi (setObject : ModelSt → Except Unit ModelSt)
    (s : AoiViewSt) (m1 : ModelSt)
    (hok : setObject (modelBeforeSetObject s) = .ok m1) :
    ∃ s', update_aoi setObject s = .ok s'
      ∧ s'.updated = s.updated + 1
      ∧ s'.ee = s.ee
      ∧ s'.model = m1
      ∧ (s.map_ = none → s'.map_ = none)
      ∧ (∀ mp, s.map_ = some mp →
          s'.map_ = some
            { mp with
              layers := removeAoiLayers mp.layers ++ [aoiLayerOf s.ee m1]
              zoomedBounds := some m1.bounds
              dcVisible := false }
          ∧ ∀ l ∈ removeAoiLayers mp.layers, l.name ≠ "aoi")
      ∧ aoiLayerOf true m1
          = { name := "aoi", kind := .eeFeatureCollection m1.feature_collection }
      ∧ aoiLayerOf false m1 = model_get_ipygeojson m1 := by
  have heq : update_aoi setObject s = .ok
      { s with
        model := m1
        map_ := s.map_.map (fun mp =>
          { mp with
            layers := removeAoiLayers mp.layers ++ [aoiLayerOf s.ee m1]
            zoomedBounds := some m1.bounds
            dcVisible := false })
        updated := s.updated + 1 } := by
    unfold update_aoi
    rw [hok]
  refine ⟨_, heq, rfl, rfl, rfl, ?_, ?_, rfl, rfl⟩
  · intro hnone
    simp [hnone]
  · intro mp hmp
    refine ⟨by simp [hmp], ?_⟩
    intro l hl
    have h2 := List.of_mem_filter hl
    simpa using h2

/-- Witness for C1: a successful set_object on a view with a linked map
already carrying an aoi layer. -/
theorem C1_update_aoi_witness :
    (update_aoi (fun m => .ok m)
        ⟨true, 0, some ⟨[⟨"aoi", .plain⟩, ⟨"base", .plain⟩], none, true, 7⟩,
         ⟨0, 1, 2, 3⟩⟩).map (fun s' => s'.updated) = .ok 1 := by
  obtain ⟨s', h1, h2, -⟩ :=
    C1_update_aoi (fun m => .ok m)
      ⟨true, 0, some ⟨[⟨"aoi", .plain⟩, ⟨"base", .plain⟩], none, true, 7⟩,
       ⟨0, 1, 2, 3⟩⟩ ⟨7, 1, 2, 3⟩ rfl
  rw [h1]
  simp [Except.map, h2]

/-- C4 as stated is false: after selecting a non-None method, the DRAW
component's input is not left reset; line 410 sets `w_draw.v_model` to the
generated manual name. -/
theorem C4_activate_counterexample :
    ¬ (∀ p ∈ (activate (some "ADMIN0") "20220101"
          ⟨⟨some "msg", true⟩, none,
           [("ADMIN0", ⟨false, some "85"⟩),
            ("DRAW", ⟨false, some "old"⟩)]⟩).comps,
        p.2.v_model = none) := by
  decide

/-- C4 amended: after every change of the selected method, exactly the
component whose key equals the new selection is shown and every other
component is hidden; every component input other than the draw name field is
reset, and the draw name field is set to None when the new selection is None
and to the generated manual name otherwise; the alert is reset; when the new
selection is None every component is hidden and every input is None. -/
theorem C4_activate (newSel : Option String) (now : String) (s : ActivateSt) :
    (activate newSel now s).alert = alertReset s.alert
    ∧ (∀ p ∈ (activate newSel now s).comps, p.2.viz = true ↔ newSel = some p.1)
    ∧ (∀ p ∈ (activate newSel now s).comps, p.1 ≠ "DRAW" → p.2.v_model = none)
    ∧ (∀ p ∈ (activate newSel now s).comps, p.1 = "DRAW" →
        p.2.v_model = match newSel with
          | none => none
          | some _ => some ("Manual_aoi_" ++ now))
    ∧ (newSel = none → ∀ p ∈ (activate newSel now s).comps,
        p.2.viz = false ∧ p.2.v_model = none) := by
  refine ⟨rfl, ?_, ?_, ?_, ?_⟩
  · intro p hp
    obtain ⟨q, hq, rfl⟩ := List.mem_map.mp hp
    simp
  · intro p hp hk
    obtain ⟨q, hq, rfl⟩ := List.mem_map.mp hp
    simp only at hk ⊢
    simp [hk]
  · intro p hp hk
    obtain ⟨q, hq, rfl⟩ := List.mem_map.mp hp
    simp only at hk ⊢
    simp [hk]
  · rintro rfl p hp
    obtain ⟨q, hq, rfl⟩ := List.mem_map.mp hp
    constructor
    · simp
    · by_cases hk : q.1 = "DRAW" <;> simp [hk]

/-- Witness for C4: the handler applied to a one-component view selecting
ADMIN0. -/
theorem C4_activate_witness :
    (("ADMIN0", (⟨true, none⟩ : CompSt)).2.viz = true)
      ↔ some "ADMIN0" = some ("ADMIN0", (⟨true, none⟩ : CompSt)).1 :=
  (C4_activate (some "ADMIN0") "20220101"
      ⟨⟨some "msg", true⟩, none, [("ADMIN0", ⟨false, some "85"⟩)]⟩).2.1
    ("ADMIN0", ⟨true, none⟩) (by decide)

/-- C5: whenever a parent administrative selector changes, the child
AdminField's v_model is reset to None; the item list is recomputed from the
administrative table filtered by the new parent code exactly when the new
value is non-empty, and every recomputed item comes from a table row whose
parent-level code equals the new value. -/
theorem C5_admin_update (norm : String → String) (tbl : List AdminRow)
    (changeNew : Option String) (f : AdminFieldSt) :
    (adminFieldUpdate norm tbl changeNew f).v_model = none
    ∧ (pyTruthyStr changeNew = false →
        (adminFieldUpdate norm tbl changeNew f).items = f.items)
    ∧ (∀ s, changeNew = some s → s ≠ "" →
        (adminFieldUpdate norm tbl changeNew f).items
          = get_items norm tbl f.level (some s)
        ∧ ∀ it ∈ (adminFieldUpdate norm tbl changeNew f).items, ∃ r,
            r ∈ tbl ∧ codeAt r (f.level - 1) = s
            ∧ it.value = codeAt r f.level
            ∧ it.text = norm (nameAt r f.level)) := by
  refine ⟨?_, ?_, ?_⟩
  · unfold adminFieldUpdate
    split <;> rfl
  · intro hfalse
    unfold adminFieldUpdate
    rw [hfalse]
    simp
  · rintro s rfl hs
    have hem : s.isEmpty = false := by
      cases hie : s.isEmpty with
      | false => rfl
      | true => exact absurd ((String.isEmpty_iff s).mp (by simp [hie])) hs
    have htr : pyTruthyStr (some s) = true := by
      simp [pyTruthyStr, hem]
    have hitems : (adminFieldUpdate norm tbl (some s) f).items
        = get_items norm tbl f.level (some s) := by
      unfold adminFieldUpdate
      simp [htr]
    refine ⟨hitems, ?_⟩
    intro it hit
    rw [hitems] at hit
    unfold get_items at hit
    rw [htr] at hit
    simp only [if_true] at hit
    obtain ⟨r, hr, rfl⟩ := List.mem_map.mp hit
    have hmemf := List.mem_filter.mp hr
    have hcode : codeAt r (f.level - 1) = s := by
      have := hmemf.2
      simpa using this
    have hsorted : r ∈ (dedupByKey (fun x => codeAt x f.level) tbl).mergeSort
        (fun a b => nameAt a f.level ≤ nameAt b f.level) := hmemf.1
    have hdedup : r ∈ dedupByKey (fun x => codeAt x f.level) tbl :=
      List.mem_mergeSort.mp hsorted
    exact ⟨r, mem_of_mem_dedupByKey _ tbl r hdedup, hcode, rfl, rfl⟩

/-- Witness for C5: a parent change to the concrete code C0 on a one-row
table. -/
theorem C5_admin_update_witness :
    (adminFieldUpdate id [⟨"C0", "C1a", "C2a", "N0", "N1a", "N2a"⟩]
        (some "C0") ⟨1, some "previous", []⟩).items
      = get_items id [⟨"C0", "C1a", "C2a", "N0", "N1a", "N2a"⟩] 1 (some "C0") :=
  ((C5_admin_update id [⟨"C0", "C1a", "C2a", "N0", "N1a", "N2a"⟩]
      (some "C0") ⟨1, some "previous", []⟩).2.2 "C0" rfl (by decide)).1

/-- C10: the claim is right and the code is wrong.  When the country name
occurs in the table the first matching row's alpha-3 code is returned, but
when it does not, `if len(row):` is skipped, the local `code` is never
assigned and `return code` raises UnboundLocalError instead of producing a
defined result (the docstring even promises a fips fallback). -/
theorem C10_get_iso_3_bug :
    get_iso_3 [⟨"France", "FRA"⟩, ⟨"Italy", "ITA"⟩] "Italy" = .ok "ITA"
    ∧ get_iso_3 [⟨"France", "FRA"⟩, ⟨"Italy", "ITA"⟩] "Atlantis"
        = .error .unboundLocalError := by
  decide

end SepalUI
